import Mathlib

/-!
# Verification of the dfs-game grid puzzle

Shallow embedding of the JavaScript classes `Coordinates`, `GameItem` and
`Game` (file `src/unnamed/part_000`) together with the entry script
(`src/scripts/index.js`), and proofs of the specification claims about them.

Modelling conventions:
* JS numbers used as indices are modelled as `Int` (coordinates may go
  negative through `up()` / `left()`).
* A JS array access `a[i]` that can yield `undefined` is modelled with
  `Option`; a statement that would throw a `TypeError` on `undefined`
  (or a `throw` statement) makes the embedded operation return `none`
  (respectively `Except.error`).
* The sparse boolean matrix `this.visited` is modelled as the list of
  marked coordinates; `visited[i] && visited[i][j]` becomes a membership
  test and `visited[i][j] = true` becomes consing the coordinate.
* `Math.random`-driven draws are modelled by an explicit draw function
  supplying, per grid slot, an index into `GAME_ITEMS` (the range of
  `getRandomNumber(GAME_ITEMS.length - 1)`).
* DOM interaction is abstracted: the document is a predicate saying which
  container ids can be located; a rendered cell records its CSS `empty`
  class, its text content and its `data-i`/`data-j` attributes.
-/

/-- The fixed symbol alphabet: `["♣", "♢", "♡", "♠"].map((el) => Symbol(el))`.
Each entry of `GAME_ITEMS` is a distinct JS `Symbol`; symbol identity is
modelled as the index into this list. -/
def GAME_ITEMS : List String := ["♣", "♢", "♡", "♠"]

/-- Embedding of the `Coordinates` class: a pair of integer indices
`(i, j)` into the grid (row, column). -/
structure Coordinates where
  i : Int
  j : Int
deriving DecidableEq, Repr

/-- Embedding of `Coordinates.isValid(rowLength, columnLength)`:
`this.i >= 0 && this.j >= 0 && this.i < rowLength && this.j < columnLength`. -/
def Coordinates.isValid (c : Coordinates) (rowLength columnLength : Nat) : Bool :=
  decide (0 ≤ c.i) && decide (0 ≤ c.j) &&
    decide (c.i < (rowLength : Int)) && decide (c.j < (columnLength : Int))

/-- Embedding of `Coordinates.up()`. -/
def Coordinates.up (c : Coordinates) : Coordinates := ⟨c.i - 1, c.j⟩

/-- Embedding of `Coordinates.down()`. -/
def Coordinates.down (c : Coordinates) : Coordinates := ⟨c.i + 1, c.j⟩

/-- Embedding of `Coordinates.left()`. -/
def Coordinates.left (c : Coordinates) : Coordinates := ⟨c.i, c.j - 1⟩

/-- Embedding of `Coordinates.right()`. -/
def Coordinates.right (c : Coordinates) : Coordinates := ⟨c.i, c.j + 1⟩

/-- Embedding of the `GameItem` class: `label` is the printable form
(`id.description`), `id` the symbol identity (index into `GAME_ITEMS`),
`isEmpty` the emptied flag. -/
structure GameItem where
  label : String
  id : Nat
  isEmpty : Bool
deriving DecidableEq, Repr

/-- The `GameItem` constructor: stores the label and identity of the given
symbol and initializes `isEmpty = false`. -/
def GameItem.new (id : Nat) : GameItem :=
  { label := GAME_ITEMS.getD id "", id := id, isEmpty := false }

/-- The grid `this.grid`: a JS array of rows of `GameItem`s. -/
abbrev Grid := List (List GameItem)

/-- The access `this.grid[c.i][c.j]`: `none` when either index is out of
range (JS `undefined`). -/
def cellAt? (g : Grid) (c : Coordinates) : Option GameItem :=
  if 0 ≤ c.i ∧ 0 ≤ c.j then
    (g.get? c.i.toNat).bind fun row => row.get? c.j.toNat
  else
    none

/-- The mutable traversal state of one flood fill: the sparse visited
matrix `this.visited` (as the list of marked coordinates) and the `chain`
array accumulating the result. -/
structure FillState where
  visited : List Coordinates
  chain : List Coordinates
deriving DecidableEq, Repr

/-- Embedding of `Game.findAdjacentElements(coordinates, target, chain)`.

The extra `Nat` argument is recursion fuel (the JS recursion has no such
argument; `findAdjacentElements_fuel_stable` below shows any fuel larger
than the number of grid positions gives the same result, so the fuel is
only a well-founded presentation of the same recursion).  Each call first
evaluates `coordinates.isValid(this.grid.length, this.grid[0].length)`:
reading `this.grid[0].length` on an empty grid throws, hence the `none`
on `g.get? 0 = none`.  The guard then stops on out-of-bounds or visited
coordinates or on a symbol-identity mismatch (`.id !== target.id` — the
`isEmpty` flag is not consulted); otherwise the coordinate is marked
visited, pushed onto the chain, and the four neighbors are explored. -/
def findAdjacentElements (g : Grid) (target : GameItem) :
    Nat → Coordinates → FillState → Option FillState
  | 0, _, s => some s
  | fuel + 1, c, s =>
    (g.get? 0).bind fun row0 =>
      if !(c.isValid g.length row0.length) || s.visited.contains c then
        some s
      else
        (cellAt? g c).bind fun item =>
          if item.id ≠ target.id then
            some s
          else
            let s1 : FillState := ⟨c :: s.visited, s.chain ++ [c]⟩
            (findAdjacentElements g target fuel c.up s1).bind fun s2 =>
              (findAdjacentElements g target fuel c.down s2).bind fun s3 =>
                (findAdjacentElements g target fuel c.left s3).bind fun s4 =>
                  findAdjacentElements g target fuel c.right s4

/-- The number of grid positions plus one: enough fuel for any flood fill
(each recursive descent marks a fresh valid position). -/
def floodFuel (g : Grid) : Nat := g.length * (g.headD []).length + 1

/-- Embedding of `Game.findConnectedGroup(coordinates)`: reads the start
cell `this.grid[coordinates.i][coordinates.j]` (before any bounds check —
`none` models the JS `TypeError` when it is `undefined`), then runs
`findAdjacentElements` on an empty `chains` array.  The function does not
reset `this.visited`; it receives the current visited state and the
result pair is `(chains, final visited state)`. -/
def findConnectedGroup (g : Grid) (visited : List Coordinates) (c : Coordinates) :
    Option (List Coordinates × List Coordinates) :=
  (cellAt? g c).bind fun target =>
    (findAdjacentElements g target (floodFuel g) c ⟨visited, []⟩).map fun s =>
      (s.chain, s.visited)

/-- The presentation unit produced by `GameItem.build`: whether the div
carries the `empty` CSS class, its `textContent`, and its
`data-i`/`data-j` position metadata (absent on empty cells). -/
structure RenderedCell where
  classEmpty : Bool
  textContent : String
  datasetPos : Option Coordinates
deriving DecidableEq, Repr

/-- Embedding of `GameItem.build(coordinates)`: the div starts with the
`empty` class and no content; when the item is not empty the class is
removed and the label and position dataset are attached. -/
def GameItem.build (item : GameItem) (coordinates : Coordinates) : RenderedCell :=
  if item.isEmpty then
    { classEmpty := true, textContent := "", datasetPos := none }
  else
    { classEmpty := false, textContent := item.label, datasetPos := some coordinates }

/-- Embedding of `Game.paint()`: the row-major list of presentation units
appended to the (cleared) container.  Locating the container is covered by
`getContainer` below; `paint` itself is the pure projection of the grid. -/
def paint (g : Grid) : List RenderedCell :=
  (g.enum.map fun p => p.2.enum.map fun q =>
    q.2.build ⟨Int.ofNat p.1, Int.ofNat q.1⟩).flatten

/-- One step of `Game.removeGroup`: `this.grid[coord.i][coord.j].isEmpty = true`.
`none` models the JS `TypeError` when the indexing yields `undefined`. -/
def setEmptyAt? (g : Grid) (c : Coordinates) : Option Grid :=
  (cellAt? g c).map fun item =>
    g.set c.i.toNat ((g.getD c.i.toNat []).set c.j.toNat { item with isEmpty := true })

/-- The `group.forEach(...)` loop of `Game.removeGroup`. -/
def setEmptyAll? : Grid → List Coordinates → Option Grid
  | g, [] => some g
  | g, c :: rest => (setEmptyAt? g c).bind fun g1 => setEmptyAll? g1 rest

/-- Embedding of `Game.removeGroup(group)`: marks every listed cell empty,
then calls `this.paint()`; the repaint output is returned alongside the
updated grid. -/
def removeGroup (g : Grid) (group : List Coordinates) :
    Option (Grid × List RenderedCell) :=
  (setEmptyAll? g group).map fun g2 => (g2, paint g2)

/-- What a click event delivers to `Game.handleClickCell`: either the
clicked div has the `empty` class, or it is a filled cell carrying its
`data-i`/`data-j` coordinates. -/
inductive ClickTarget where
  | emptyCell : ClickTarget
  | filledCell (c : Coordinates) : ClickTarget
deriving DecidableEq, Repr

/-- The mutable state of a `Game` instance that the gameplay operations
touch: `this.grid` and `this.visited`. -/
structure GameState where
  grid : Grid
  visited : List Coordinates
deriving DecidableEq, Repr

/-- Embedding of `Game.handleClickCell(event)`: first `this.visited = []`;
a click on a cell with the `empty` class does nothing further; otherwise
the group at the cell's dataset coordinates is found and removed.
`none` models a thrown `TypeError` (possible only for coordinates no
rendered cell carries). -/
def handleClickCell (s : GameState) (ev : ClickTarget) : Option GameState :=
  let s1 : GameState := { s with visited := [] }
  match ev with
  | ClickTarget.emptyCell => some s1
  | ClickTarget.filledCell c =>
    (findConnectedGroup s1.grid s1.visited c).bind fun r =>
      (removeGroup s1.grid r.1).map fun res => { grid := res.1, visited := r.2 }

/-- Embedding of `Game.getContainer()`: `dom` abstracts
`document.querySelector` (which ids can be located); a missing container
throws. -/
def getContainer (dom : String → Bool) (containerId : String) : Except String Unit :=
  if dom containerId then Except.ok ()
  else Except.error ("HTML-container with id - " ++ containerId ++ " does not exist")

/-- Embedding of `Game.init()`: locates the container (the only fallible
step; adding the CSS class, the `--columns` style and the click listener
are presentation effects with no bearing on the embedded state). -/
def Game.init (dom : String → Bool) (containerId : String) : Except String Unit :=
  getContainer dom containerId

/-- Embedding of `Game.generateGridItem()`:
`GAME_ITEMS[getRandomNumber(GAME_ITEMS.length - 1)]` — the random draw is
supplied as an index into `GAME_ITEMS`. -/
def generateGridItem (k : Fin GAME_ITEMS.length) : GameItem :=
  GameItem.new k.val

/-- Embedding of `Game.generateGrid()`: `rows` rows of `cols` independently
drawn items; `draw i j` supplies the random index for slot `(i, j)`. -/
def generateGrid (rows cols : Nat) (draw : Nat → Nat → Fin GAME_ITEMS.length) : Grid :=
  (List.range rows).map fun i => (List.range cols).map fun j => generateGridItem (draw i j)

/-- The constructed `Game` instance (fields set by the constructor). -/
structure Game where
  cols : Nat
  rows : Nat
  containerId : String
  grid : Grid
  visited : List Coordinates
deriving Repr

/-- Embedding of the `Game` constructor
`constructor(cols, rows, containerId)`: `??`-defaulting of the three
arguments (`none` models an omitted / `undefined` / `null` argument),
`this.init()`, grid generation, `this.visited = []`.  The constructor's
final `this.paint()` is the pure `paint` of the generated grid. -/
def Game.new (cols rows : Option Nat) (containerId : Option String)
    (dom : String → Bool) (draw : Nat → Nat → Fin GAME_ITEMS.length) :
    Except String Game :=
  let cs := cols.getD 6
  let rs := rows.getD 7
  let cid := containerId.getD "#game"
  match Game.init dom cid with
  | Except.error e => Except.error e
  | Except.ok _ =>
    Except.ok { cols := cs, rows := rs, containerId := cid,
                grid := generateGrid rs cs draw, visited := [] }

/-- The gameplay operations a `Game` instance exposes after construction,
for stating state-evolution invariants. -/
inductive GameOp where
  | clickOp (ev : ClickTarget) : GameOp
  | removeOp (group : List Coordinates) : GameOp
  | findGroupOp (c : Coordinates) : GameOp
  | repaintOp : GameOp

/-- Applying one operation to the game state.  `findConnectedGroup`
mutates only `this.visited`; `paint` reads the grid without changing it. -/
def applyOp (s : GameState) : GameOp → Option GameState
  | GameOp.clickOp ev => handleClickCell s ev
  | GameOp.removeOp group =>
    (removeGroup s.grid group).map fun res => { s with grid := res.1 }
  | GameOp.findGroupOp c =>
    (findConnectedGroup s.grid s.visited c).map fun r => { s with visited := r.2 }
  | GameOp.repaintOp => some s

/-- Running a sequence of operations; a thrown error aborts the run. -/
def runOps (s : GameState) : List GameOp → Option GameState
  | [] => some s
  | op :: rest => (applyOp s op).bind fun s2 => runOps s2 rest

section Sanity

example : findConnectedGroup [[GameItem.new 0]] [] ⟨0, 0⟩ =
    some ([⟨0, 0⟩], [⟨0, 0⟩]) := by decide

example : findConnectedGroup [[GameItem.new 0, GameItem.new 0]] [] ⟨0, 0⟩ =
    some ([⟨0, 0⟩, ⟨0, 1⟩], [⟨0, 1⟩, ⟨0, 0⟩]) := by decide

example : findConnectedGroup [[GameItem.new 0, GameItem.new 1]] [] ⟨0, 0⟩ =
    some ([⟨0, 0⟩], [⟨0, 0⟩]) := by decide

example : removeGroup [[GameItem.new 0, GameItem.new 1]] [⟨0, 1⟩] =
    some ([[GameItem.new 0, { GameItem.new 1 with isEmpty := true }]],
      paint [[GameItem.new 0, { GameItem.new 1 with isEmpty := true }]]) := by decide

example : handleClickCell ⟨[[GameItem.new 0]], [⟨5, 5⟩]⟩ (ClickTarget.filledCell ⟨0, 0⟩) =
    some ⟨[[{ GameItem.new 0 with isEmpty := true }]], [⟨0, 0⟩]⟩ := by decide

example : (Game.new (some 0) (some 0) none (fun _ => true) (fun _ _ => ⟨0, by decide⟩)).toOption.map
    Game.cols = some 0 := by decide

end Sanity

/-! ## Basic facts about coordinates, grids and the visited count -/

/-- The list of all in-bounds positions of a grid (bounds as the guard of
`findAdjacentElements` computes them: `grid.length` rows, `grid[0].length`
columns). -/
def allValidPos (g : Grid) : List Coordinates :=
  (List.range g.length).flatMap fun i =>
    (List.range (g.headD []).length).map fun j => ⟨Int.ofNat i, Int.ofNat j⟩

/-- The number of in-bounds positions not yet marked visited: the measure
that shrinks whenever the flood fill marks a position. -/
def unvisitedCount (g : Grid) (visited : List Coordinates) : Nat :=
  ((allValidPos g).filter fun c => !(visited.contains c)).length

theorem isValid_iff {c : Coordinates} {R C : Nat} :
    c.isValid R C = true ↔ 0 ≤ c.i ∧ 0 ≤ c.j ∧ c.i < (R : Int) ∧ c.j < (C : Int) := by
  simp [Coordinates.isValid, Bool.and_eq_true, decide_eq_true_iff, and_assoc]

theorem contains_iff {l : List Coordinates} {c : Coordinates} :
    l.contains c = true ↔ c ∈ l := List.elem_iff

theorem mem_allValidPos {g : Grid} {c : Coordinates} :
    c ∈ allValidPos g ↔ c.isValid g.length (g.headD []).length = true := by
  rw [isValid_iff]
  constructor
  · intro h
    rw [allValidPos, List.mem_flatMap] at h
    obtain ⟨i, hi, hmem⟩ := h
    rw [List.mem_map] at hmem
    obtain ⟨j, hj, rfl⟩ := hmem
    rw [List.mem_range] at hi hj
    simp only [Int.ofNat_eq_coe]
    refine ⟨Int.ofNat_nonneg i, Int.ofNat_nonneg j, ?_, ?_⟩ <;> omega
  · intro h
    obtain ⟨a, b⟩ := c
    simp only at h
    rw [allValidPos, List.mem_flatMap]
    refine ⟨a.toNat, ?_, ?_⟩
    · rw [List.mem_range]; omega
    · rw [List.mem_map]
      refine ⟨b.toNat, by rw [List.mem_range]; omega, ?_⟩
      rw [Coordinates.mk.injEq]
      constructor <;> simp <;> omega

theorem allValidPos_nodup (g : Grid) : (allValidPos g).Nodup := by
  rw [allValidPos, List.nodup_flatMap]
  constructor
  · intro i _
    exact (List.nodup_range _).map fun x y h => by
      have := congrArg Coordinates.j h; simpa using this
  · rw [List.pairwise_iff_getElem]
    intro a b ha hb hab
    rw [Function.onFun, List.disjoint_left]
    intro x hx hx2
    rw [List.mem_map] at hx hx2
    obtain ⟨j1, _, h1⟩ := hx
    obtain ⟨j2, _, h2⟩ := hx2
    have e1 := congrArg Coordinates.i h1
    have e2 := congrArg Coordinates.i h2
    simp only [List.getElem_range, Int.ofNat_eq_coe] at e1 e2
    omega

theorem allValidPos_length (g : Grid) :
    (allValidPos g).length = g.length * (g.headD []).length := by
  simp [allValidPos, List.length_flatMap, Function.comp_def, List.map_const,
    List.sum_replicate, smul_eq_mul]

theorem unvisitedCount_le_of_subset {g : Grid} {v v' : List Coordinates}
    (h : ∀ x, x ∈ v → x ∈ v') :
    unvisitedCount g v' ≤ unvisitedCount g v := by
  apply List.Sublist.length_le
  apply List.monotone_filter_right
  intro c hc
  simp only [Bool.not_eq_true', ← Bool.not_eq_true, contains_iff] at hc ⊢
  exact fun hmem => hc (h c hmem)

theorem unvisitedCount_lt_of_mark {g : Grid} {v : List Coordinates} {c : Coordinates}
    (hvalid : c.isValid g.length (g.headD []).length = true) (hnot : c ∉ v) :
    unvisitedCount g (c :: v) < unvisitedCount g v := by
  have hsub : List.Sublist ((allValidPos g).filter fun x => !((c :: v).contains x))
      ((allValidPos g).filter fun x => !(v.contains x)) := by
    apply List.monotone_filter_right
    intro x hx
    simp only [Bool.not_eq_true', ← Bool.not_eq_true, contains_iff] at hx ⊢
    exact fun hmem => hx (List.mem_cons_of_mem c hmem)
  have hne : ((allValidPos g).filter fun x => !((c :: v).contains x)) ≠
      ((allValidPos g).filter fun x => !(v.contains x)) := by
    intro heq
    have hc1 : c ∈ (allValidPos g).filter fun x => !(v.contains x) := by
      rw [List.mem_filter]
      refine ⟨mem_allValidPos.mpr hvalid, ?_⟩
      simp only [Bool.not_eq_true', ← Bool.not_eq_true, contains_iff]
      exact hnot
    rw [← heq, List.mem_filter] at hc1
    have := hc1.2
    simp only [Bool.not_eq_true', ← Bool.not_eq_true, contains_iff] at this
    exact this (List.mem_cons_self c v)
  rcases Nat.lt_or_ge ((allValidPos g).filter fun x => !((c :: v).contains x)).length
      ((allValidPos g).filter fun x => !(v.contains x)).length with h1 | h1
  · exact h1
  · exact absurd (List.Sublist.eq_of_length_le hsub h1) hne

theorem unvisitedCount_le_card (g : Grid) (v : List Coordinates) :
    unvisitedCount g v ≤ g.length * (g.headD []).length := by
  rw [← allValidPos_length]
  exact List.length_filter_le _ _

theorem unvisitedCount_lt_floodFuel (g : Grid) (v : List Coordinates) :
    unvisitedCount g v < floodFuel g :=
  Nat.lt_succ_of_le (unvisitedCount_le_card g v)

/-- On a rectangular grid every position the guard accepts can actually be
read: `grid[c.i][c.j]` is defined. -/
theorem cellAt?_isSome_of_valid {g : Grid} {row0 : List GameItem} {c : Coordinates}
    (hrow0 : g.get? 0 = some row0)
    (hrect : ∀ row ∈ g, row.length = row0.length)
    (hvalid : c.isValid g.length row0.length = true) :
    ∃ item, cellAt? g c = some item := by
  rw [isValid_iff] at hvalid
  obtain ⟨h1, h2, h3, h4⟩ := hvalid
  have hi : c.i.toNat < g.length := by omega
  obtain ⟨row, hrow⟩ : ∃ row, g.get? c.i.toNat = some row := by
    rw [List.get?_eq_getElem?]
    exact ⟨g[c.i.toNat], List.getElem?_eq_getElem hi⟩
  have hlen : row.length = row0.length := hrect row (List.get?_mem hrow)
  have hj : c.j.toNat < row.length := by rw [hlen]; omega
  obtain ⟨item, hitem⟩ : ∃ item, row.get? c.j.toNat = some item := by
    rw [List.get?_eq_getElem?]
    exact ⟨row[c.j.toNat], List.getElem?_eq_getElem hj⟩
  refine ⟨item, ?_⟩
  rw [cellAt?, if_pos ⟨h1, h2⟩, hrow]
  exact hitem

/-- Reading `grid[0].length` through `headD`. -/
theorem headD_of_get?_zero {g : Grid} {row0 : List GameItem}
    (hrow0 : g.get? 0 = some row0) : g.headD [] = row0 := by
  cases g with
  | nil => simp at hrow0
  | cons r t => simpa using hrow0

/-! ## Same-symbol connectivity -/

/-- One von Neumann step: `b` is one of the four neighbors of `a`. -/
def isNeighbor (a b : Coordinates) : Prop :=
  b = a.up ∨ b = a.down ∨ b = a.left ∨ b = a.right

/-- A position the flood-fill guard accepts for target identity `tid`:
in bounds and holding a cell whose symbol identity is `tid` (the
`isEmpty` flag plays no role, exactly as in the source guard). -/
def matchPos (g : Grid) (tid : Nat) (c : Coordinates) : Prop :=
  c.isValid g.length (g.headD []).length = true ∧
    ∃ item, cellAt? g c = some item ∧ item.id = tid

/-- Connectivity relation `GroupReach g tid a b`: `b` is connected to `a` by a chain of
4-neighbor steps all of whose positions (including `a` and `b`) are in
bounds and carry symbol identity `tid`.  The set
`{b | GroupReach g tid a b}` is the maximal 4-connected same-identity
component containing `a`. -/
inductive GroupReach (g : Grid) (tid : Nat) : Coordinates → Coordinates → Prop
  | refl (c : Coordinates) (h : matchPos g tid c) : GroupReach g tid c c
  | tail {a b : Coordinates} (c : Coordinates) (hab : GroupReach g tid a b)
      (hstep : isNeighbor b c) (hc : matchPos g tid c) : GroupReach g tid a c

theorem isNeighbor_symm {a b : Coordinates} (h : isNeighbor a b) : isNeighbor b a := by
  obtain ⟨ai, aj⟩ := a
  obtain ⟨bi, bj⟩ := b
  simp only [isNeighbor, Coordinates.up, Coordinates.down, Coordinates.left,
    Coordinates.right, Coordinates.mk.injEq] at h ⊢
  omega

theorem GroupReach.source_match {g : Grid} {tid : Nat} {a b : Coordinates}
    (h : GroupReach g tid a b) : matchPos g tid a := by
  induction h with
  | refl hc => exact hc
  | tail c hab hstep hc ih => exact ih

theorem GroupReach.target_match {g : Grid} {tid : Nat} {a b : Coordinates}
    (h : GroupReach g tid a b) : matchPos g tid b := by
  cases h with
  | refl hc => exact hc
  | tail c hab hstep hc => exact hc

theorem GroupReach.trans {g : Grid} {tid : Nat} {a b c : Coordinates}
    (h1 : GroupReach g tid a b) (h2 : GroupReach g tid b c) : GroupReach g tid a c := by
  induction h2 with
  | refl hd => exact h1
  | tail d hbd hstep hd ih => exact GroupReach.tail d ih hstep hd

theorem GroupReach.head {g : Grid} {tid : Nat} {a b : Coordinates}
    (ha : matchPos g tid a) (hstep : isNeighbor a b) (hab : GroupReach g tid b b) :
    GroupReach g tid a b :=
  GroupReach.tail b (GroupReach.refl a ha) hstep hab.target_match

theorem GroupReach.symm {g : Grid} {tid : Nat} {a b : Coordinates}
    (h : GroupReach g tid a b) : GroupReach g tid b a := by
  induction h with
  | refl hc => exact GroupReach.refl _ hc
  | tail c hab hstep hc ih =>
    exact GroupReach.trans
      (GroupReach.head hc (isNeighbor_symm hstep) (GroupReach.refl _ hab.target_match)) ih

/-- Prepending one step to a reach chain. -/
theorem GroupReach.prepend {g : Grid} {tid : Nat} {a b c : Coordinates}
    (ha : matchPos g tid a) (hstep : isNeighbor a b) (h : GroupReach g tid b c) :
    GroupReach g tid a c :=
  GroupReach.trans (GroupReach.head ha hstep (GroupReach.refl b h.source_match)) h

/-! ## The flood fill: shape of a successful run -/

/-- Every run of `findAdjacentElements` appends some list `t` of fresh
marks to the chain and conses exactly those marks onto the visited list. -/
theorem findAdjacentElements_shape (g : Grid) (target : GameItem) :
    ∀ fuel c s s', findAdjacentElements g target fuel c s = some s' →
      ∃ t, s'.chain = s.chain ++ t ∧ s'.visited = t.reverse ++ s.visited := by
  intro fuel
  induction fuel with
  | zero =>
    intro c s s' h
    rw [findAdjacentElements] at h
    injection h with h
    exact ⟨[], by simp [← h]⟩
  | succ n ih =>
    intro c s s' h
    rw [findAdjacentElements] at h
    cases hg0 : g.get? 0 with
    | none => rw [hg0] at h; simp at h
    | some row0 =>
      rw [hg0, Option.some_bind] at h
      by_cases hguard : (!(c.isValid g.length row0.length) || s.visited.contains c) = true
      · rw [if_pos hguard] at h
        injection h with h
        exact ⟨[], by simp [← h]⟩
      · rw [if_neg hguard] at h
        cases hcell : cellAt? g c with
        | none => rw [hcell] at h; simp at h
        | some item =>
          rw [hcell, Option.some_bind] at h
          by_cases hid : item.id ≠ target.id
          · rw [if_pos hid] at h
            injection h with h
            exact ⟨[], by simp [← h]⟩
          · rw [if_neg hid] at h
            simp only at h
            cases h2 : findAdjacentElements g target n c.up ⟨c :: s.visited, s.chain ++ [c]⟩ with
            | none => rw [h2] at h; simp at h
            | some s2 =>
              rw [h2, Option.some_bind] at h
              cases h3 : findAdjacentElements g target n c.down s2 with
              | none => rw [h3] at h; simp at h
              | some s3 =>
                rw [h3, Option.some_bind] at h
                cases h4 : findAdjacentElements g target n c.left s3 with
                | none => rw [h4] at h; simp at h
                | some s4 =>
                  rw [h4, Option.some_bind] at h
                  obtain ⟨t2, hc2, hv2⟩ := ih _ _ _ h2
                  obtain ⟨t3, hc3, hv3⟩ := ih _ _ _ h3
                  obtain ⟨t4, hc4, hv4⟩ := ih _ _ _ h4
                  obtain ⟨t5, hc5, hv5⟩ := ih _ _ _ h
                  refine ⟨c :: (t2 ++ t3 ++ t4 ++ t5), ?_, ?_⟩
                  · simp only [hc5, hc4, hc3, hc2]
                    simp
                  · simp only [hv5, hv4, hv3, hv2]
                    simp

/-- Reading the guard: the else branch is taken exactly on a fresh valid
coordinate. -/
theorem guard_not_stop {c : Coordinates} {R C : Nat} {v : List Coordinates}
    (h : ¬((!(c.isValid R C) || v.contains c) = true)) :
    c.isValid R C = true ∧ c ∉ v := by
  constructor
  · cases hx : c.isValid R C
    · exact absurd (by rw [hx]; rfl) h
    · rfl
  · intro hmem
    have hc : v.contains c = true := contains_iff.mpr hmem
    exact h (by rw [hc, Bool.or_true])

theorem fae_visited_subset {g : Grid} {target : GameItem} {fuel : Nat}
    {c : Coordinates} {s s' : FillState}
    (h : findAdjacentElements g target fuel c s = some s') :
    ∀ x, x ∈ s.visited → x ∈ s'.visited := by
  obtain ⟨t, _, hv⟩ := findAdjacentElements_shape g target fuel c s s' h
  intro x hx
  rw [hv]
  exact List.mem_append_right _ hx

theorem fae_unvisited_le {g : Grid} {target : GameItem} {fuel : Nat}
    {c : Coordinates} {s s' : FillState}
    (h : findAdjacentElements g target fuel c s = some s') :
    unvisitedCount g s'.visited ≤ unvisitedCount g s.visited :=
  unvisitedCount_le_of_subset (fae_visited_subset h)

/-- One extra unit of fuel changes nothing once the fuel exceeds the
number of unvisited valid positions. -/
theorem findAdjacentElements_fuel_succ (g : Grid) (target : GameItem) :
    ∀ fuel c s, unvisitedCount g s.visited < fuel →
      findAdjacentElements g target (fuel + 1) c s =
        findAdjacentElements g target fuel c s := by
  intro fuel
  induction fuel with
  | zero => intro c s h; omega
  | succ n ih =>
    intro c s hmu
    rw [findAdjacentElements, findAdjacentElements]
    cases hg0 : g.get? 0 with
    | none => rfl
    | some row0 =>
      simp only [Option.some_bind]
      by_cases hguard : (!(c.isValid g.length row0.length) || s.visited.contains c) = true
      · rw [if_pos hguard, if_pos hguard]
      · rw [if_neg hguard, if_neg hguard]
        cases hcell : cellAt? g c with
        | none => rfl
        | some item =>
          simp only [Option.some_bind]
          by_cases hid : item.id ≠ target.id
          · rw [if_pos hid, if_pos hid]
          · rw [if_neg hid, if_neg hid]
            obtain ⟨hvalid, hfresh⟩ := guard_not_stop hguard
            have hvalid' : c.isValid g.length (g.headD []).length = true := by
              rwa [headD_of_get?_zero hg0]
            have hmu1 : unvisitedCount g (c :: s.visited) < n := by
              have := unvisitedCount_lt_of_mark hvalid' hfresh
              omega
            rw [ih c.up ⟨c :: s.visited, s.chain ++ [c]⟩ hmu1]
            cases h2 : findAdjacentElements g target n c.up ⟨c :: s.visited, s.chain ++ [c]⟩ with
            | none => rfl
            | some s2 =>
              simp only [Option.some_bind]
              have hmu2 : unvisitedCount g s2.visited < n :=
                Nat.lt_of_le_of_lt (fae_unvisited_le h2) hmu1
              rw [ih c.down s2 hmu2]
              cases h3 : findAdjacentElements g target n c.down s2 with
              | none => rfl
              | some s3 =>
                simp only [Option.some_bind]
                have hmu3 : unvisitedCount g s3.visited < n :=
                  Nat.lt_of_le_of_lt (fae_unvisited_le h3) hmu2
                rw [ih c.left s3 hmu3]
                cases h4 : findAdjacentElements g target n c.left s3 with
                | none => rfl
                | some s4 =>
                  simp only [Option.some_bind]
                  have hmu4 : unvisitedCount g s4.visited < n :=
                    Nat.lt_of_le_of_lt (fae_unvisited_le h4) hmu3
                  exact ih c.right s4 hmu4

/-- Fuel stability: any two fuels above the unvisited-position count give
the same traversal result. -/
theorem findAdjacentElements_fuel_stable (g : Grid) (target : GameItem)
    {fuel1 fuel2 : Nat} (c : Coordinates) (s : FillState)
    (h1 : unvisitedCount g s.visited < fuel1)
    (h2 : unvisitedCount g s.visited < fuel2) :
    findAdjacentElements g target fuel1 c s = findAdjacentElements g target fuel2 c s := by
  have key : ∀ a b, unvisitedCount g s.visited < a → a ≤ b →
      findAdjacentElements g target a c s = findAdjacentElements g target b c s := by
    intro a b ha hab
    induction b, hab using Nat.le_induction with
    | base => rfl
    | succ k hk ihk =>
      rw [ihk, findAdjacentElements_fuel_succ g target k c s (Nat.lt_of_lt_of_le ha hk)]
  rcases Nat.le_total fuel1 fuel2 with h | h
  · exact key fuel1 fuel2 h1 h
  · exact (key fuel2 fuel1 h2 h).symm

/-- The master description of a flood-fill call on a rectangular grid with
enough fuel: it succeeds, appends a duplicate-free list `t` of freshly
visited positions to the chain, every appended position is reachable from
the call's coordinate through same-identity cells, the call's coordinate
is visited afterwards whenever it matches, and every matching neighbor of
an appended position is visited afterwards. -/
theorem findAdjacentElements_run (g : Grid) (target : GameItem) (row0 : List GameItem)
    (hrow0 : g.get? 0 = some row0)
    (hrect : ∀ row ∈ g, row.length = row0.length) :
    ∀ fuel c s, unvisitedCount g s.visited < fuel →
      ∃ s' t, findAdjacentElements g target fuel c s = some s' ∧
        s'.chain = s.chain ++ t ∧
        s'.visited = t.reverse ++ s.visited ∧
        t.Nodup ∧
        (∀ x ∈ t, x ∉ s.visited) ∧
        (∀ x ∈ t, GroupReach g target.id c x) ∧
        (matchPos g target.id c → c ∈ s'.visited) ∧
        (∀ x ∈ t, ∀ d, isNeighbor x d → matchPos g target.id d → d ∈ s'.visited) := by
  intro fuel
  induction fuel with
  | zero => intro c s hmu; omega
  | succ n ih =>
    intro c s hmu
    rw [findAdjacentElements, hrow0, Option.some_bind]
    by_cases hguard : (!(c.isValid g.length row0.length) || s.visited.contains c) = true
    · rw [if_pos hguard]
      refine ⟨s, [], rfl, by simp, by simp, List.nodup_nil, by simp, by simp, ?_, by simp⟩
      intro hmatch
      rw [Bool.or_eq_true] at hguard
      rcases hguard with hbad | hvis
      · exfalso
        have := hmatch.1
        rw [headD_of_get?_zero hrow0] at this
        rw [Bool.not_eq_true'] at hbad
        rw [this] at hbad
        exact Bool.noConfusion hbad
      · exact contains_iff.mp hvis
    · rw [if_neg hguard]
      obtain ⟨hvalid, hfresh⟩ := guard_not_stop hguard
      have hvalid' : c.isValid g.length (g.headD []).length = true := by
        rwa [headD_of_get?_zero hrow0]
      obtain ⟨item, hcell⟩ := cellAt?_isSome_of_valid hrow0 hrect hvalid
      rw [hcell, Option.some_bind]
      by_cases hid : item.id ≠ target.id
      · rw [if_pos hid]
        refine ⟨s, [], rfl, by simp, by simp, List.nodup_nil, by simp, by simp, ?_, by simp⟩
        intro hmatch
        exfalso
        obtain ⟨item2, hcell2, hid2⟩ := hmatch.2
        rw [hcell] at hcell2
        injection hcell2 with he
        exact hid (he ▸ hid2)
      · rw [if_neg hid]
        rw [not_not] at hid
        have matchC : matchPos g target.id c := ⟨hvalid', item, hcell, hid⟩
        have hmu1 : unvisitedCount g (c :: s.visited) < n := by
          have := unvisitedCount_lt_of_mark hvalid' hfresh
          omega
        obtain ⟨s2, t2, h2, hc2, hv2, hn2, hf2, hr2, hp2, hcl2⟩ :=
          ih c.up ⟨c :: s.visited, s.chain ++ [c]⟩ hmu1
        have hmu2 : unvisitedCount g s2.visited < n :=
          Nat.lt_of_le_of_lt (fae_unvisited_le h2) hmu1
        obtain ⟨s3, t3, h3, hc3, hv3, hn3, hf3, hr3, hp3, hcl3⟩ := ih c.down s2 hmu2
        have hmu3 : unvisitedCount g s3.visited < n :=
          Nat.lt_of_le_of_lt (fae_unvisited_le h3) hmu2
        obtain ⟨s4, t4, h4, hc4, hv4, hn4, hf4, hr4, hp4, hcl4⟩ := ih c.left s3 hmu3
        have hmu4 : unvisitedCount g s4.visited < n :=
          Nat.lt_of_le_of_lt (fae_unvisited_le h4) hmu3
        obtain ⟨s5, t5, h5, hc5, hv5, hn5, hf5, hr5, hp5, hcl5⟩ := ih c.right s4 hmu4
        dsimp only
        rw [h2, Option.some_bind, h3, Option.some_bind, h4, Option.some_bind, h5]
        -- subset chains between the intermediate visited lists
        have sub12 : ∀ x, x ∈ c :: s.visited → x ∈ s2.visited := fae_visited_subset h2
        have sub23 : ∀ x, x ∈ s2.visited → x ∈ s3.visited := fae_visited_subset h3
        have sub34 : ∀ x, x ∈ s3.visited → x ∈ s4.visited := fae_visited_subset h4
        have sub45 : ∀ x, x ∈ s4.visited → x ∈ s5.visited := fae_visited_subset h5
        have ht2v : ∀ x ∈ t2, x ∈ s2.visited := by
          intro x hx; rw [hv2]; exact List.mem_append_left _ (List.mem_reverse.mpr hx)
        have ht3v : ∀ x ∈ t3, x ∈ s3.visited := by
          intro x hx; rw [hv3]; exact List.mem_append_left _ (List.mem_reverse.mpr hx)
        have ht4v : ∀ x ∈ t4, x ∈ s4.visited := by
          intro x hx; rw [hv4]; exact List.mem_append_left _ (List.mem_reverse.mpr hx)
        have ht5v : ∀ x ∈ t5, x ∈ s5.visited := by
          intro x hx; rw [hv5]; exact List.mem_append_left _ (List.mem_reverse.mpr hx)
        have hcv1 : c ∈ c :: s.visited := List.mem_cons_self c s.visited
        have hcv2 : c ∈ s2.visited := sub12 c hcv1
        have hcv3 : c ∈ s3.visited := sub23 c hcv2
        have hcv4 : c ∈ s4.visited := sub34 c hcv3
        have hcv5 : c ∈ s5.visited := sub45 c hcv4
        refine ⟨s5, c :: (t2 ++ t3 ++ t4 ++ t5), rfl, ?_, ?_, ?_, ?_, ?_, ?_, ?_⟩
        · simp only [hc5, hc4, hc3, hc2]
          simp
        · simp only [hv5, hv4, hv3, hv2]
          simp
        · rw [List.nodup_cons]
          constructor
          · intro hcmem
            simp only [List.mem_append] at hcmem
            rcases hcmem with ((hx | hx) | hx) | hx
            · exact hf2 c hx hcv1
            · exact hf3 c hx hcv2
            · exact hf4 c hx hcv3
            · exact hf5 c hx hcv4
          · rw [List.nodup_append, List.nodup_append, List.nodup_append]
            refine ⟨⟨⟨hn2, hn3, ?_⟩, hn4, ?_⟩, hn5, ?_⟩
            · intro x hx2 hx3
              exact hf3 x hx3 (ht2v x hx2)
            · intro x hx hx4
              rcases List.mem_append.mp hx with hx2 | hx3
              · exact hf4 x hx4 (sub23 x (ht2v x hx2))
              · exact hf4 x hx4 (ht3v x hx3)
            · intro x hx hx5
              rcases List.mem_append.mp hx with hx23 | hx4
              · rcases List.mem_append.mp hx23 with hx2 | hx3
                · exact hf5 x hx5 (sub34 x (sub23 x (ht2v x hx2)))
                · exact hf5 x hx5 (sub34 x (ht3v x hx3))
              · exact hf5 x hx5 (ht4v x hx4)
        · intro x hx
          rcases List.mem_cons.mp hx with rfl | hx
          · exact hfresh
          · intro hxs
            have hxs1 : x ∈ c :: s.visited := List.mem_cons_of_mem c hxs
            rcases List.mem_append.mp hx with hx234 | hx5
            · rcases List.mem_append.mp hx234 with hx23 | hx4
              · rcases List.mem_append.mp hx23 with hx2 | hx3
                · exact hf2 x hx2 hxs1
                · exact hf3 x hx3 (sub12 x hxs1)
              · exact hf4 x hx4 (sub23 x (sub12 x hxs1))
            · exact hf5 x hx5 (sub34 x (sub23 x (sub12 x hxs1)))
        · intro x hx
          rcases List.mem_cons.mp hx with rfl | hx
          · exact GroupReach.refl x matchC
          · rcases List.mem_append.mp hx with hx234 | hx5
            · rcases List.mem_append.mp hx234 with hx23 | hx4
              · rcases List.mem_append.mp hx23 with hx2 | hx3
                · exact GroupReach.prepend matchC (Or.inl rfl) (hr2 x hx2)
                · exact GroupReach.prepend matchC (Or.inr (Or.inl rfl)) (hr3 x hx3)
              · exact GroupReach.prepend matchC (Or.inr (Or.inr (Or.inl rfl))) (hr4 x hx4)
            · exact GroupReach.prepend matchC (Or.inr (Or.inr (Or.inr rfl))) (hr5 x hx5)
        · intro _
          exact hcv5
        · intro x hx d hnb hmatchd
          rcases List.mem_cons.mp hx with rfl | hx
          · rcases hnb with rfl | rfl | rfl | rfl
            · exact sub45 _ (sub34 _ (sub23 _ (hp2 hmatchd)))
            · exact sub45 _ (sub34 _ (hp3 hmatchd))
            · exact sub45 _ (hp4 hmatchd)
            · exact hp5 hmatchd
          · rcases List.mem_append.mp hx with hx234 | hx5
            · rcases List.mem_append.mp hx234 with hx23 | hx4
              · rcases List.mem_append.mp hx23 with hx2 | hx3
                · exact sub45 _ (sub34 _ (sub23 _ (hcl2 x hx2 d hnb hmatchd)))
                · exact sub45 _ (sub34 _ (hcl3 x hx3 d hnb hmatchd))
              · exact sub45 _ (hcl4 x hx4 d hnb hmatchd)
            · exact hcl5 x hx5 d hnb hmatchd

/-! ## findConnectedGroup: totality and characterization -/

/-- On a rectangular non-empty grid, `findConnectedGroup` from an
in-bounds start never throws, whatever the current visited state. -/
theorem findConnectedGroup_isSome {g : Grid} {row0 : List GameItem}
    (v : List Coordinates) {c : Coordinates}
    (hrow0 : g.get? 0 = some row0)
    (hrect : ∀ row ∈ g, row.length = row0.length)
    (hvalid : c.isValid g.length row0.length = true) :
    (findConnectedGroup g v c).isSome = true := by
  obtain ⟨target, hcell⟩ := cellAt?_isSome_of_valid hrow0 hrect hvalid
  rw [findConnectedGroup, hcell, Option.some_bind]
  obtain ⟨s', t, hrun, _⟩ :=
    findAdjacentElements_run g target row0 hrow0 hrect (floodFuel g) c ⟨v, []⟩
      (unvisitedCount_lt_floodFuel g v)
  rw [hrun]
  rfl

/-- The characterization of `findConnectedGroup` begun on a cleared
visited state: it returns exactly the maximal same-identity 4-connected
component of the start position, without duplicates, and the final
visited marks are exactly the chain (in reverse mark order). -/
theorem findConnectedGroup_spec {g : Grid} {row0 : List GameItem}
    {p : Coordinates} {target : GameItem}
    (hrow0 : g.get? 0 = some row0)
    (hrect : ∀ row ∈ g, row.length = row0.length)
    (hvalid : p.isValid g.length row0.length = true)
    (htarget : cellAt? g p = some target) :
    ∃ chain, findConnectedGroup g [] p = some (chain, chain.reverse) ∧
      chain.Nodup ∧
      (∀ q, q ∈ chain ↔ GroupReach g target.id p q) := by
  obtain ⟨s', t, hrun, hchain, hvis, hnodup, hfresh, hreach, hpost, hclosure⟩ :=
    findAdjacentElements_run g target row0 hrow0 hrect (floodFuel g) p ⟨[], []⟩
      (unvisitedCount_lt_floodFuel g [])
  have hchain' : s'.chain = t := by simpa using hchain
  have hvis' : s'.visited = t.reverse := by simpa using hvis
  have hmem_vis : ∀ x, x ∈ s'.visited ↔ x ∈ t := by
    intro x; rw [hvis', List.mem_reverse]
  have hcomplete : ∀ x, GroupReach g target.id p x → x ∈ s'.visited := by
    intro x hx
    induction hx with
    | refl hc => exact hpost hc
    | tail d hab hstep hd ihab =>
      exact hclosure _ ((hmem_vis _).mp ihab) d hstep hd
  refine ⟨t, ?_, hnodup, ?_⟩
  · rw [findConnectedGroup, htarget, Option.some_bind, hrun, Option.map_some', hchain', hvis']
  · intro q
    constructor
    · exact hreach q
    · intro hq
      exact (hmem_vis q).mp (hcomplete q hq)

/-! ## removeGroup: effect and frame -/

/-- When the cell exists, `setEmptyAt?` succeeds; the updated grid agrees
with the original everywhere except the target, whose cell keeps its
label and identity and has its empty flag set. -/
theorem setEmptyAt?_spec {g : Grid} {c : Coordinates} {item : GameItem}
    (h : cellAt? g c = some item) :
    ∃ u, setEmptyAt? g c = some u ∧
      cellAt? u c = some { item with isEmpty := true } ∧
      (∀ x, x ≠ c → cellAt? u x = cellAt? g x) := by
  have hnn : 0 ≤ c.i ∧ 0 ≤ c.j := by
    by_contra hcon
    rw [cellAt?, if_neg hcon] at h
    exact Option.noConfusion h
  have hread : (g.get? c.i.toNat).bind (fun row => row.get? c.j.toNat) = some item := by
    rw [cellAt?, if_pos hnn] at h
    exact h
  cases hrow : g.get? c.i.toNat with
  | none => rw [hrow] at hread; exact absurd hread (by simp)
  | some row =>
    rw [hrow, Option.some_bind] at hread
    have hgetD : g.getD c.i.toNat [] = row := by
      rw [List.getD_eq_get?, hrow]
      rfl
    have hilt : c.i.toNat < g.length := by
      rw [List.get?_eq_getElem?, List.getElem?_eq_some] at hrow
      exact hrow.1
    have hjlt : c.j.toNat < row.length := by
      rw [List.get?_eq_getElem?, List.getElem?_eq_some] at hread
      exact hread.1
    refine ⟨_, by rw [setEmptyAt?, h, Option.map_some'], ?_, ?_⟩
    · rw [cellAt?, if_pos hnn, hgetD]
      rw [List.get?_eq_getElem?, List.getElem?_set_eq_of_lt _ hilt, Option.some_bind]
      rw [List.get?_eq_getElem?, List.getElem?_set_eq_of_lt _ hjlt]
    · intro x hx
      by_cases hxnn : 0 ≤ x.i ∧ 0 ≤ x.j
      · rw [cellAt?, cellAt?, if_pos hxnn, if_pos hxnn, hgetD]
        by_cases hxi : x.i.toNat = c.i.toNat
        · have hij : x.j.toNat ≠ c.j.toNat := by
            intro hxj
            apply hx
            have e1 : x.i = c.i := by omega
            have e2 : x.j = c.j := by omega
            cases x; cases c
            simp only [Coordinates.mk.injEq]
            exact ⟨e1, e2⟩
          rw [hxi]
          simp only [List.get?_eq_getElem?]
          rw [List.getElem?_set_eq_of_lt _ hilt, Option.some_bind]
          rw [List.get?_eq_getElem?] at hrow
          rw [hrow, Option.some_bind]
          rw [List.getElem?_set_ne (fun he => hij he.symm)]
        · simp only [List.get?_eq_getElem?]
          rw [List.getElem?_set_ne (fun he => hxi he.symm)]
      · rw [cellAt?, cellAt?, if_neg hxnn, if_neg hxnn]

/-- The whole removal loop: when every listed position is readable it
succeeds, each listed position ends up with its empty flag set (identity
and label untouched), and every other position is bit-for-bit unchanged. -/
theorem setEmptyAll?_spec :
    ∀ (group : List Coordinates) (g : Grid),
      (∀ c ∈ group, (cellAt? g c).isSome = true) →
      ∃ g2, setEmptyAll? g group = some g2 ∧
        (∀ c ∈ group, ∃ item, cellAt? g c = some item ∧
          cellAt? g2 c = some { item with isEmpty := true }) ∧
        (∀ x, x ∉ group → cellAt? g2 x = cellAt? g x) := by
  intro group
  induction group with
  | nil =>
    intro g _
    exact ⟨g, rfl, by simp, fun x _ => rfl⟩
  | cons c rest ih =>
    intro g hin
    obtain ⟨item, hitem⟩ : ∃ item, cellAt? g c = some item := by
      have := hin c (List.mem_cons_self c rest)
      cases hc : cellAt? g c with
      | none => rw [hc] at this; exact Bool.noConfusion this
      | some it => exact ⟨it, rfl⟩
    obtain ⟨u, hu, hhit, hframe⟩ := setEmptyAt?_spec hitem
    have hinrest : ∀ x ∈ rest, (cellAt? u x).isSome = true := by
      intro x hx
      by_cases hxc : x = c
      · subst hxc
        rw [hhit]
        rfl
      · rw [hframe x hxc]
        exact hin x (List.mem_cons_of_mem c hx)
    obtain ⟨g2, hg2, hres, hfr2⟩ := ih u hinrest
    refine ⟨g2, ?_, ?_, ?_⟩
    · rw [setEmptyAll?, hu, Option.some_bind]
      exact hg2
    · intro x hx
      rcases List.mem_cons.mp hx with rfl | hxrest
      · by_cases hxr : x ∈ rest
        · obtain ⟨item2, hx2, hx2'⟩ := hres x hxr
          rw [hhit] at hx2
          injection hx2 with he
          refine ⟨item, hitem, ?_⟩
          rw [hx2', ← he]
        · rw [hfr2 x hxr, hhit]
          exact ⟨item, hitem, rfl⟩
      · by_cases hxc : x = c
        · subst hxc
          by_cases hxr : x ∈ rest
          · obtain ⟨item2, hx2, hx2'⟩ := hres x hxr
            rw [hhit] at hx2
            injection hx2 with he
            exact ⟨item, hitem, by rw [hx2', ← he]⟩
          · exact absurd hxrest hxr
        · obtain ⟨item2, hx2, hx2'⟩ := hres x hxrest
          rw [hframe x hxc] at hx2
          exact ⟨item2, hx2, hx2'⟩
    · intro x hx
      have hxc : x ≠ c := fun he => hx (he ▸ List.mem_cons_self c rest)
      have hxr : x ∉ rest := fun hr => hx (List.mem_cons_of_mem c hr)
      rw [hfr2 x hxr, hframe x hxc]

/-- Behaviour of `removeGroup` on readable positions: it succeeds, produces the grid
with exactly the listed cells emptied, and repaints that grid. -/
theorem removeGroup_spec {g : Grid} {group : List Coordinates}
    (hin : ∀ c ∈ group, (cellAt? g c).isSome = true) :
    ∃ g2, removeGroup g group = some (g2, paint g2) ∧
      (∀ c ∈ group, ∃ item, cellAt? g c = some item ∧
        cellAt? g2 c = some { item with isEmpty := true }) ∧
      (∀ x, x ∉ group → cellAt? g2 x = cellAt? g x) := by
  obtain ⟨g2, hg2, hres, hfr⟩ := setEmptyAll?_spec group g hin
  exact ⟨g2, by rw [removeGroup, hg2, Option.map_some'], hres, hfr⟩

/-! ## Monotonicity of the empty flag across operations -/

/-- Relation `GridMono g g'`: every cell of `g` still exists in `g'` with the same
identity and label, and an emptied cell stays emptied. -/
def GridMono (g g' : Grid) : Prop :=
  ∀ c item, cellAt? g c = some item →
    ∃ item', cellAt? g' c = some item' ∧ item'.id = item.id ∧
      item'.label = item.label ∧ (item.isEmpty = true → item'.isEmpty = true)

theorem GridMono.refl (g : Grid) : GridMono g g :=
  fun _ item h => ⟨item, h, rfl, rfl, fun he => he⟩

theorem GridMono.comp {g1 g2 g3 : Grid} (h12 : GridMono g1 g2)
    (h23 : GridMono g2 g3) : GridMono g1 g3 := by
  intro c item h
  obtain ⟨item2, h2, hid2, hl2, he2⟩ := h12 c item h
  obtain ⟨item3, h3, hid3, hl3, he3⟩ := h23 c item2 h2
  exact ⟨item3, h3, hid3.trans hid2, hl3.trans hl2, fun he => he3 (he2 he)⟩

theorem setEmptyAll?_mono :
    ∀ (group : List Coordinates) (g g2 : Grid),
      setEmptyAll? g group = some g2 → GridMono g g2 := by
  intro group
  induction group with
  | nil =>
    intro g g2 h
    injection h with h
    exact h ▸ GridMono.refl g
  | cons c rest ih =>
    intro g g2 h
    rw [setEmptyAll?] at h
    cases hu : setEmptyAt? g c with
    | none => rw [hu] at h; exact absurd h (by simp)
    | some u =>
      rw [hu, Option.some_bind] at h
      have hstep : GridMono g u := by
        intro x item hx
        have hcell : ∃ item0, cellAt? g c = some item0 := by
          rw [setEmptyAt?] at hu
          cases hc : cellAt? g c with
          | none => rw [hc] at hu; exact absurd hu (by simp)
          | some it => exact ⟨it, rfl⟩
        obtain ⟨item0, hc0⟩ := hcell
        obtain ⟨u', hu', hhit, hframe⟩ := setEmptyAt?_spec hc0
        rw [hu] at hu'
        injection hu' with hu'
        subst hu'
        by_cases hxc : x = c
        · subst hxc
          rw [hx] at hc0
          injection hc0 with he
          subst he
          exact ⟨_, hhit, rfl, rfl, fun _ => rfl⟩
        · exact ⟨item, by rw [hframe x hxc]; exact hx, rfl, rfl, fun he => he⟩
      exact GridMono.comp hstep (ih u g2 h)

theorem removeGroup_mono {g g2 : Grid} {group : List Coordinates}
    {rendered : List RenderedCell}
    (h : removeGroup g group = some (g2, rendered)) : GridMono g g2 := by
  rw [removeGroup] at h
  cases hs : setEmptyAll? g group with
  | none => rw [hs] at h; exact absurd h (by simp)
  | some u =>
    rw [hs, Option.map_some'] at h
    injection h with h
    have : u = g2 := congrArg Prod.fst h
    exact this ▸ setEmptyAll?_mono group g u hs

theorem handleClickCell_mono {s : GameState} {ev : ClickTarget} {s' : GameState}
    (h : handleClickCell s ev = some s') : GridMono s.grid s'.grid := by
  cases ev with
  | emptyCell =>
    rw [handleClickCell.eq_def] at h
    dsimp only at h
    injection h with h
    subst h
    exact GridMono.refl s.grid
  | filledCell c =>
    rw [handleClickCell.eq_def] at h
    dsimp only at h
    cases hf : findConnectedGroup s.grid [] c with
    | none => rw [hf] at h; exact absurd h (by simp)
    | some r =>
      rw [hf, Option.some_bind] at h
      cases hr : removeGroup s.grid r.1 with
      | none => rw [hr] at h; exact absurd h (by simp)
      | some res =>
        rw [hr, Option.map_some'] at h
        injection h with h
        subst h
        exact removeGroup_mono hr

theorem applyOp_mono {s s' : GameState} {op : GameOp}
    (h : applyOp s op = some s') : GridMono s.grid s'.grid := by
  cases op with
  | clickOp ev => exact handleClickCell_mono h
  | removeOp group =>
    rw [applyOp] at h
    cases hr : removeGroup s.grid group with
    | none => rw [hr] at h; exact absurd h (by simp)
    | some res =>
      rw [hr, Option.map_some'] at h
      injection h with h
      subst h
      exact removeGroup_mono hr
  | findGroupOp c =>
    rw [applyOp] at h
    cases hf : findConnectedGroup s.grid s.visited c with
    | none => rw [hf] at h; exact absurd h (by simp)
    | some r =>
      rw [hf, Option.map_some'] at h
      injection h with h
      subst h
      exact GridMono.refl s.grid
  | repaintOp =>
    injection h with h
    rw [← h]
    exact GridMono.refl s.grid

theorem runOps_mono :
    ∀ (ops : List GameOp) (s s' : GameState),
      runOps s ops = some s' → GridMono s.grid s'.grid := by
  intro ops
  induction ops with
  | nil =>
    intro s s' h
    injection h with h
    rw [← h]
    exact GridMono.refl s.grid
  | cons op rest ih =>
    intro s s' h
    rw [runOps] at h
    cases ha : applyOp s op with
    | none => rw [ha] at h; exact absurd h (by simp)
    | some s2 =>
      rw [ha, Option.some_bind] at h
      exact GridMono.comp (applyOp_mono ha) (ih s2 s' h)

/-! ## Claim theorems -/

/-- C1: for every rectangular board and every in-bounds start position `p`
whose cell is non-empty, `findConnectedGroup(p)` begun with a cleared
visited state succeeds and returns exactly the maximal 4-connected
(von Neumann) component of positions whose cells share `p`'s symbol
identity — stated as: membership in the returned chain is equivalent to
`GroupReach`-connectivity to `p` — including `p` itself, with each
position appearing at most once. -/
theorem C1_findConnectedGroup_component (g : Grid) (row0 : List GameItem)
    (p : Coordinates) (target : GameItem)
    (hrow0 : g.get? 0 = some row0)
    (hrect : ∀ row ∈ g, row.length = row0.length)
    (hp : p.isValid g.length row0.length = true)
    (htarget : cellAt? g p = some target)
    (hnonempty : target.isEmpty = false) :
    ∃ chain vis, findConnectedGroup g [] p = some (chain, vis) ∧
      p ∈ chain ∧ chain.Nodup ∧
      ∀ q, q ∈ chain ↔ GroupReach g target.id p q := by
  obtain ⟨chain, hfcg, hnodup, hiff⟩ := findConnectedGroup_spec hrow0 hrect hp htarget
  refine ⟨chain, chain.reverse, hfcg, ?_, hnodup, hiff⟩
  rw [hiff p]
  exact GroupReach.refl p ⟨by rwa [headD_of_get?_zero hrow0], target, htarget, rfl⟩

/-- Witness for C1 on the 1×1 board holding one club. -/
theorem C1_witness :
    ∃ chain vis, findConnectedGroup [[GameItem.new 0]] [] ⟨0, 0⟩ = some (chain, vis) ∧
      (⟨0, 0⟩ : Coordinates) ∈ chain ∧ chain.Nodup ∧
      ∀ q, q ∈ chain ↔ GroupReach [[GameItem.new 0]] (GameItem.new 0).id ⟨0, 0⟩ q :=
  C1_findConnectedGroup_component [[GameItem.new 0]] [GameItem.new 0] ⟨0, 0⟩
    (GameItem.new 0) (by decide)
    (by intro row hr; rw [List.mem_singleton] at hr; subst hr; rfl)
    (by decide) (by decide) (by decide)

/-- C2: the click entry point `handleClickCell` resets `this.visited = []`
as its first statement, before any traversal; hence its behaviour is
independent of whatever visited marks a previous group search left
behind — the click on state with marks `v` is the click on the cleared
state. -/
theorem C2_visited_reset (g : Grid) (v : List Coordinates) (ev : ClickTarget)
    (c : Coordinates) :
    handleClickCell ⟨g, v⟩ ev = handleClickCell ⟨g, []⟩ ev ∧
    handleClickCell ⟨g, v⟩ (ClickTarget.filledCell c) =
      ((findConnectedGroup g [] c).bind fun r =>
        (removeGroup g r.1).map fun res => { grid := res.1, visited := r.2 }) :=
  ⟨rfl, rfl⟩

/-- C3 counterexample: on the freshly generated 1×1 board, the claim
"`q ∈ findConnectedGroup(p)` implies `p ∈ findConnectedGroup(q)` and the
two groups are equal, one call made after the other" fails: the code
does not reset `this.visited` inside `findConnectedGroup`, so the second
call starts from the visited marks the first left behind and returns an
empty chain (take `p = q = (0,0)`). -/
theorem C3_counterexample :
    generateGrid 1 1 (fun _ _ => ⟨0, by decide⟩) = [[GameItem.new 0]] ∧
    findConnectedGroup [[GameItem.new 0]] [] ⟨0, 0⟩ =
      some ([⟨0, 0⟩], [⟨0, 0⟩]) ∧
    (⟨0, 0⟩ : Coordinates) ∈ [(⟨0, 0⟩ : Coordinates)] ∧
    findConnectedGroup [[GameItem.new 0]] [⟨0, 0⟩] ⟨0, 0⟩ = some ([], [⟨0, 0⟩]) ∧
    (⟨0, 0⟩ : Coordinates) ∉ ([] : List Coordinates) := by decide

/-- C3 as amended: when each of the two calls is begun with a cleared
visited state (as the click entry point guarantees), membership is
symmetric and the two chains are equal as sets. -/
theorem C3_group_symmetry (g : Grid) (row0 : List GameItem) (p q : Coordinates)
    (hrow0 : g.get? 0 = some row0)
    (hrect : ∀ row ∈ g, row.length = row0.length)
    (hp : p.isValid g.length row0.length = true)
    (chainP visP : List Coordinates)
    (hcall : findConnectedGroup g [] p = some (chainP, visP))
    (hq : q ∈ chainP) :
    ∃ chainQ visQ, findConnectedGroup g [] q = some (chainQ, visQ) ∧
      p ∈ chainQ ∧ ∀ x, x ∈ chainP ↔ x ∈ chainQ := by
  obtain ⟨target, htarget⟩ := cellAt?_isSome_of_valid hrow0 hrect hp
  obtain ⟨chain, hfcg, hnodup, hiff⟩ := findConnectedGroup_spec hrow0 hrect hp htarget
  rw [hcall] at hfcg
  injection hfcg with hfcg
  have hchainP : chainP = chain := congrArg Prod.fst hfcg
  subst hchainP
  have hreach_pq : GroupReach g target.id p q := (hiff q).mp hq
  have hmq : matchPos g target.id q := hreach_pq.target_match
  obtain ⟨hqvalid, itemQ, hcellQ, hidQ⟩ := hmq
  have hqvalid' : q.isValid g.length row0.length = true := by
    rwa [headD_of_get?_zero hrow0] at hqvalid
  obtain ⟨chainQ, hfcgQ, hnodupQ, hiffQ⟩ := findConnectedGroup_spec hrow0 hrect hqvalid' hcellQ
  have hiffQ' : ∀ x, x ∈ chainQ ↔ GroupReach g target.id q x := by
    intro x
    rw [hiffQ x, hidQ]
  refine ⟨chainQ, chainQ.reverse, hfcgQ, ?_, ?_⟩
  · rw [hiffQ' p]
    exact hreach_pq.symm
  · intro x
    rw [hiff x, hiffQ' x]
    constructor
    · intro hx
      exact GroupReach.trans hreach_pq.symm hx
    · intro hx
      exact GroupReach.trans hreach_pq hx

/-- Witness for the amended C3 on a 1×2 board of two clubs. -/
theorem C3_witness :
    ∃ chainQ visQ,
      findConnectedGroup [[GameItem.new 0, GameItem.new 0]] [] ⟨0, 1⟩ =
        some (chainQ, visQ) ∧
      (⟨0, 0⟩ : Coordinates) ∈ chainQ ∧
      ∀ x, x ∈ [(⟨0, 0⟩ : Coordinates), ⟨0, 1⟩] ↔ x ∈ chainQ :=
  C3_group_symmetry [[GameItem.new 0, GameItem.new 0]] [GameItem.new 0, GameItem.new 0]
    ⟨0, 0⟩ ⟨0, 1⟩ (by decide)
    (by intro row hr; rw [List.mem_singleton] at hr; subst hr; rfl)
    (by decide) [⟨0, 0⟩, ⟨0, 1⟩] [⟨0, 1⟩, ⟨0, 0⟩] (by decide) (by decide)

/-- C4 counterexample: after removing only `(0,1)` from a 1×2 board of
two clubs — a state reachable through `removeGroup` — the flood fill
started at the non-empty cell `(0,0)` returns the emptied position
`(0,1)`: the guard compares `.id` only and never consults `isEmpty`, so
an emptied cell retains its symbol identity for matching. -/
theorem C4_counterexample :
    removeGroup [[GameItem.new 0, GameItem.new 0]] [⟨0, 1⟩] =
      some ([[GameItem.new 0, { GameItem.new 0 with isEmpty := true }]],
        paint [[GameItem.new 0, { GameItem.new 0 with isEmpty := true }]]) ∧
    cellAt? [[GameItem.new 0, { GameItem.new 0 with isEmpty := true }]] ⟨0, 0⟩ =
      some (GameItem.new 0) ∧
    (GameItem.new 0).isEmpty = false ∧
    findConnectedGroup [[GameItem.new 0, { GameItem.new 0 with isEmpty := true }]]
      [] ⟨0, 0⟩ = some ([⟨0, 0⟩, ⟨0, 1⟩], [⟨0, 1⟩, ⟨0, 0⟩]) ∧
    (⟨0, 1⟩ : Coordinates) ∈ [(⟨0, 0⟩ : Coordinates), ⟨0, 1⟩] ∧
    cellAt? [[GameItem.new 0, { GameItem.new 0 with isEmpty := true }]] ⟨0, 1⟩ =
      some { GameItem.new 0 with isEmpty := true } ∧
    ({ GameItem.new 0 with isEmpty := true }).isEmpty = true := by decide

/-- C4 as amended: the flood fill matches on symbol identity alone, so it
avoids emptied cells exactly when no cell sharing the start's identity is
emptied (in particular on any board that has seen no removals): then
every returned position holds a non-empty cell. -/
theorem C4_no_empty_when_identity_clean (g : Grid) (row0 : List GameItem)
    (p : Coordinates) (target : GameItem)
    (hrow0 : g.get? 0 = some row0)
    (hrect : ∀ row ∈ g, row.length = row0.length)
    (hp : p.isValid g.length row0.length = true)
    (htarget : cellAt? g p = some target)
    (hclean : ∀ c item, cellAt? g c = some item → item.id = target.id →
      item.isEmpty = false) :
    ∃ chain vis, findConnectedGroup g [] p = some (chain, vis) ∧
      ∀ q ∈ chain, ∃ item, cellAt? g q = some item ∧
        item.id = target.id ∧ item.isEmpty = false := by
  obtain ⟨chain, hfcg, hnodup, hiff⟩ := findConnectedGroup_spec hrow0 hrect hp htarget
  refine ⟨chain, chain.reverse, hfcg, ?_⟩
  intro q hq
  obtain ⟨_, item, hcell, hid⟩ := ((hiff q).mp hq).target_match
  exact ⟨item, hcell, hid, hclean q item hcell hid⟩

/-- Witness for the amended C4 on a fresh 1×2 board of two clubs. -/
theorem C4_witness :
    ∃ chain vis,
      findConnectedGroup [[GameItem.new 0, GameItem.new 0]] [] ⟨0, 0⟩ =
        some (chain, vis) ∧
      ∀ q ∈ chain, ∃ item, cellAt? [[GameItem.new 0, GameItem.new 0]] q = some item ∧
        item.id = (GameItem.new 0).id ∧ item.isEmpty = false :=
  C4_no_empty_when_identity_clean [[GameItem.new 0, GameItem.new 0]]
    [GameItem.new 0, GameItem.new 0] ⟨0, 0⟩ (GameItem.new 0) (by decide)
    (by intro row hr; rw [List.mem_singleton] at hr; subst hr; rfl)
    (by decide) (by decide)
    (by
      intro c item h _
      have hnn : 0 ≤ c.i ∧ 0 ≤ c.j := by
        by_contra hcon
        rw [cellAt?, if_neg hcon] at h
        exact Option.noConfusion h
      rw [cellAt?, if_pos hnn] at h
      cases hrow : List.get? [[GameItem.new 0, GameItem.new 0]] c.i.toNat with
      | none => rw [hrow] at h; exact absurd h (by simp)
      | some row =>
        rw [hrow, Option.some_bind] at h
        have hrowmem := List.get?_mem hrow
        rw [List.mem_singleton] at hrowmem
        subst hrowmem
        have hitemmem := List.get?_mem h
        rcases List.mem_cons.mp hitemmem with rfl | hitemmem
        · rfl
        · rw [List.mem_singleton] at hitemmem
          subst hitemmem
          rfl)

/-- C5: `removeGroup` on in-bounds positions succeeds, sets the empty
flag of exactly the listed cells (identity and label untouched), leaves
every other cell bit-for-bit unchanged, and always triggers a repaint —
also on the empty group, where the grid is unchanged and the repaint
still happens. -/
theorem C5_removeGroup_effect (g : Grid) (group : List Coordinates)
    (hin : ∀ c ∈ group, (cellAt? g c).isSome = true) :
    (∃ g2, removeGroup g group = some (g2, paint g2) ∧
      (∀ c ∈ group, ∃ item, cellAt? g c = some item ∧
        cellAt? g2 c = some { item with isEmpty := true }) ∧
      (∀ x, x ∉ group → cellAt? g2 x = cellAt? g x)) ∧
    removeGroup g [] = some (g, paint g) := by
  exact ⟨removeGroup_spec hin, rfl⟩

/-- Witness for C5: removing the left cell of a 1×2 board. -/
theorem C5_witness :
    (∃ g2, removeGroup [[GameItem.new 0, GameItem.new 1]] [⟨0, 0⟩] =
        some (g2, paint g2) ∧
      (∀ c ∈ [(⟨0, 0⟩ : Coordinates)], ∃ item,
        cellAt? [[GameItem.new 0, GameItem.new 1]] c = some item ∧
        cellAt? g2 c = some { item with isEmpty := true }) ∧
      (∀ x, x ∉ [(⟨0, 0⟩ : Coordinates)] →
        cellAt? g2 x = cellAt? [[GameItem.new 0, GameItem.new 1]] x)) ∧
    removeGroup [[GameItem.new 0, GameItem.new 1]] [] =
      some ([[GameItem.new 0, GameItem.new 1]],
        paint [[GameItem.new 0, GameItem.new 1]]) :=
  C5_removeGroup_effect [[GameItem.new 0, GameItem.new 1]] [⟨0, 0⟩] (by decide)

/-- C6: locating the render target is the only error source.
`getContainer` throws exactly when the configured id cannot be located;
construction succeeds whenever the container resolves; and over their
documented domains the gameplay operations throw nothing: flood fill from
an in-bounds start on a rectangular board, removal of readable positions,
and clicks (on an empty cell, or on a rendered in-bounds cell) all
return a value. -/
theorem C6_only_error_is_missing_container :
    (∀ (dom : String → Bool) (cid : String),
      (∃ e, getContainer dom cid = Except.error e) ↔ dom cid = false) ∧
    (∀ (cols rows : Option Nat) (cid : Option String) (dom : String → Bool)
      (draw : Nat → Nat → Fin GAME_ITEMS.length),
      dom (cid.getD "#game") = true →
      ∃ game, Game.new cols rows cid dom draw = Except.ok game) ∧
    (∀ (g : Grid) (row0 : List GameItem) (v : List Coordinates) (c : Coordinates),
      g.get? 0 = some row0 → (∀ row ∈ g, row.length = row0.length) →
      c.isValid g.length row0.length = true →
      (findConnectedGroup g v c).isSome = true) ∧
    (∀ (g : Grid) (group : List Coordinates),
      (∀ c ∈ group, (cellAt? g c).isSome = true) →
      (removeGroup g group).isSome = true) ∧
    (∀ s : GameState, (handleClickCell s ClickTarget.emptyCell).isSome = true) ∧
    (∀ (g : Grid) (row0 : List GameItem) (v : List Coordinates) (c : Coordinates),
      g.get? 0 = some row0 → (∀ row ∈ g, row.length = row0.length) →
      c.isValid g.length row0.length = true →
      (handleClickCell ⟨g, v⟩ (ClickTarget.filledCell c)).isSome = true) := by
  refine ⟨?_, ?_, ?_, ?_, ?_, ?_⟩
  · intro dom cid
    constructor
    · rintro ⟨e, he⟩
      cases hd : dom cid with
      | false => rfl
      | true =>
        rw [getContainer, if_pos hd] at he
        exact Except.noConfusion he
    · intro hd
      rw [getContainer, if_neg (by rw [hd]; exact Bool.noConfusion)]
      exact ⟨_, rfl⟩
  · intro cols rows cid dom draw hdom
    rw [Game.new]
    have hinit : Game.init dom (cid.getD "#game") = Except.ok () := by
      rw [Game.init, getContainer, if_pos hdom]
    rw [hinit]
    exact ⟨_, rfl⟩
  · intro g row0 v c h1 h2 h3
    exact findConnectedGroup_isSome v h1 h2 h3
  · intro g group hin
    obtain ⟨g2, hg2, -, -⟩ := removeGroup_spec hin
    rw [hg2]
    rfl
  · intro s
    rfl
  · intro g row0 v c h1 h2 h3
    obtain ⟨target, htarget⟩ := cellAt?_isSome_of_valid h1 h2 h3
    obtain ⟨chain, hfcg, hnodup, hiff⟩ := findConnectedGroup_spec h1 h2 h3 htarget
    have hreadable : ∀ x ∈ chain, (cellAt? g x).isSome = true := by
      intro x hx
      obtain ⟨-, item, hcell, -⟩ := ((hiff x).mp hx).target_match
      rw [hcell]
      rfl
    obtain ⟨g2, hg2, -, -⟩ := removeGroup_spec hreadable
    rw [handleClickCell.eq_def]
    dsimp only
    rw [hfcg, Option.some_bind, hg2]
    rfl

/-- Witness for C6: a missing container yields the error; the total
operations return values on a 1×1 board. -/
theorem C6_witness :
    (∃ e, getContainer (fun _ => false) "#game" = Except.error e) ∧
    (∃ game, Game.new none none none (fun _ => true)
      (fun _ _ => ⟨0, by decide⟩) = Except.ok game) ∧
    (findConnectedGroup [[GameItem.new 0]] [] ⟨0, 0⟩).isSome = true ∧
    (removeGroup [[GameItem.new 0]] [⟨0, 0⟩]).isSome = true ∧
    (handleClickCell ⟨[[GameItem.new 0]], []⟩ ClickTarget.emptyCell).isSome = true ∧
    (handleClickCell ⟨[[GameItem.new 0]], []⟩
      (ClickTarget.filledCell ⟨0, 0⟩)).isSome = true :=
  ⟨(C6_only_error_is_missing_container.1 (fun _ => false) "#game").mpr rfl,
   C6_only_error_is_missing_container.2.1 none none none (fun _ => true)
     (fun _ _ => ⟨0, by decide⟩) rfl,
   C6_only_error_is_missing_container.2.2.1 [[GameItem.new 0]] [GameItem.new 0] [] ⟨0, 0⟩
     (by decide) (by intro row hr; rw [List.mem_singleton] at hr; subst hr; rfl) (by decide),
   C6_only_error_is_missing_container.2.2.2.1 [[GameItem.new 0]] [⟨0, 0⟩] (by decide),
   C6_only_error_is_missing_container.2.2.2.2.1 ⟨[[GameItem.new 0]], []⟩,
   C6_only_error_is_missing_container.2.2.2.2.2 [[GameItem.new 0]] [GameItem.new 0] [] ⟨0, 0⟩
     (by decide) (by intro row hr; rw [List.mem_singleton] at hr; subst hr; rfl) (by decide)⟩

/-- C7: the constructor defaults (6 columns, 7 rows) are applied through
`??` only when the argument is absent (`none`, modelling omitted /
`undefined` / `null`), never when it is merely falsy: passing `0`
produces a genuinely zero-sized board, and any supplied number is kept
verbatim; omitting both yields the documented 7×6 grid. -/
theorem C7_defaults_only_when_absent (dom : String → Bool)
    (draw : Nat → Nat → Fin GAME_ITEMS.length) (cid : Option String)
    (hdom : dom (cid.getD "#game") = true) :
    (∀ n m, ∃ game, Game.new (some n) (some m) cid dom draw = Except.ok game ∧
      game.cols = n ∧ game.rows = m ∧
      game.grid.length = m ∧ ∀ row ∈ game.grid, row.length = n) ∧
    (∃ game0, Game.new (some 0) (some 0) cid dom draw = Except.ok game0 ∧
      game0.cols = 0 ∧ game0.rows = 0 ∧ game0.grid = []) ∧
    (∃ gameD, Game.new none none cid dom draw = Except.ok gameD ∧
      gameD.cols = 6 ∧ gameD.rows = 7 ∧
      gameD.grid.length = 7 ∧ ∀ row ∈ gameD.grid, row.length = 6) := by
  have hinit : Game.init dom (cid.getD "#game") = Except.ok () := by
    rw [Game.init, getContainer, if_pos hdom]
  have hgen : ∀ rows cols, (generateGrid rows cols draw).length = rows ∧
      ∀ row ∈ generateGrid rows cols draw, row.length = cols := by
    intro rows cols
    constructor
    · rw [generateGrid, List.length_map, List.length_range]
    · intro row hrow
      rw [generateGrid, List.mem_map] at hrow
      obtain ⟨i, -, rfl⟩ := hrow
      rw [List.length_map, List.length_range]
  refine ⟨?_, ?_, ?_⟩
  · intro n m
    refine ⟨{ cols := n, rows := m, containerId := (cid.getD "#game"),
              grid := generateGrid m n draw, visited := [] },
      ?_, rfl, rfl, (hgen m n).1, (hgen m n).2⟩
    rw [Game.new, hinit]
    rfl
  · refine ⟨{ cols := 0, rows := 0, containerId := (cid.getD "#game"),
              grid := generateGrid 0 0 draw, visited := [] }, ?_, rfl, rfl, rfl⟩
    rw [Game.new, hinit]
    rfl
  · refine ⟨{ cols := 6, rows := 7, containerId := (cid.getD "#game"),
              grid := generateGrid 7 6 draw, visited := [] },
      ?_, rfl, rfl, (hgen 7 6).1, (hgen 7 6).2⟩
    rw [Game.new, hinit]
    rfl

/-- Witness for C7 with an always-resolving document and constant draw. -/
theorem C7_witness :
    (∀ n m, ∃ game, Game.new (some n) (some m) none (fun _ => true)
      (fun _ _ => ⟨0, by decide⟩) = Except.ok game ∧
      game.cols = n ∧ game.rows = m ∧
      game.grid.length = m ∧ ∀ row ∈ game.grid, row.length = n) ∧
    (∃ game0, Game.new (some 0) (some 0) none (fun _ => true)
      (fun _ _ => ⟨0, by decide⟩) = Except.ok game0 ∧
      game0.cols = 0 ∧ game0.rows = 0 ∧ game0.grid = []) ∧
    (∃ gameD, Game.new none none none (fun _ => true)
      (fun _ _ => ⟨0, by decide⟩) = Except.ok gameD ∧
      gameD.cols = 6 ∧ gameD.rows = 7 ∧
      gameD.grid.length = 7 ∧ ∀ row ∈ gameD.grid, row.length = 6) :=
  C7_defaults_only_when_absent (fun _ => true) (fun _ _ => ⟨0, by decide⟩) none rfl

/-- C8: the empty flag is monotonic across every successful sequence of
gameplay operations (clicks, removals, group searches, repaints): a cell
once emptied is still present and still emptied afterwards. -/
theorem C8_empty_flag_monotonic (ops : List GameOp) (s s' : GameState)
    (hrun : runOps s ops = some s') (c : Coordinates) (item : GameItem)
    (hcell : cellAt? s.grid c = some item) (hempty : item.isEmpty = true) :
    ∃ item', cellAt? s'.grid c = some item' ∧ item'.isEmpty = true := by
  obtain ⟨item', h', hid, hl, hmono⟩ := runOps_mono ops s s' hrun c item hcell
  exact ⟨item', h', hmono hempty⟩

/-- Witness for C8: a removal then a click preserve an emptied cell. -/
theorem C8_witness :
    ∃ item', cellAt?
      (match runOps ⟨[[{ GameItem.new 0 with isEmpty := true }, GameItem.new 1]], []⟩
        [GameOp.removeOp [⟨0, 1⟩], GameOp.clickOp ClickTarget.emptyCell] with
        | some s' => s'.grid
        | none => []) ⟨0, 0⟩ = some item' ∧ item'.isEmpty = true := by
  have h := C8_empty_flag_monotonic
    [GameOp.removeOp [⟨0, 1⟩], GameOp.clickOp ClickTarget.emptyCell]
    ⟨[[{ GameItem.new 0 with isEmpty := true }, GameItem.new 1]], []⟩
    ⟨[[{ GameItem.new 0 with isEmpty := true },
       { GameItem.new 1 with isEmpty := true }]], []⟩
    (by decide) ⟨0, 0⟩ { GameItem.new 0 with isEmpty := true } (by decide) rfl
  exact h

/-- C9: the recursive flood fill terminates within recursion depth
bounded by the number of grid positions: any fuel at least
`floodFuel g = rows * columns + 1` yields the same traversal result as
`floodFuel g` itself, from any start and any traversal state. -/
theorem C9_flood_fill_terminates (g : Grid) (target : GameItem) (c : Coordinates)
    (s : FillState) (fuel : Nat) (hfuel : floodFuel g ≤ fuel) :
    findAdjacentElements g target fuel c s =
      findAdjacentElements g target (floodFuel g) c s :=
  findAdjacentElements_fuel_stable g target c s
    (Nat.lt_of_lt_of_le (unvisitedCount_lt_floodFuel g s.visited) hfuel)
    (unvisitedCount_lt_floodFuel g s.visited)

/-- Witness for C9 on the 1×1 board with generous fuel. -/
theorem C9_witness :
    findAdjacentElements [[GameItem.new 0]] (GameItem.new 0) 10 ⟨0, 0⟩ ⟨[], []⟩ =
      findAdjacentElements [[GameItem.new 0]] (GameItem.new 0)
        (floodFuel [[GameItem.new 0]]) ⟨0, 0⟩ ⟨[], []⟩ :=
  C9_flood_fill_terminates [[GameItem.new 0]] (GameItem.new 0) ⟨0, 0⟩ ⟨[], []⟩ 10
    (by decide)

/-- C10: `findConnectedGroup` reads the start cell before any bounds
check and each recursive step reads row 0's length; on a non-empty
rectangular board with an in-bounds start every embedded access is
defined (`isSome`), and both preconditions are necessary: an
out-of-bounds start on the 1×1 board and any start on the empty board
make the embedded accesses yield `none` (a JS `TypeError`). -/
theorem C10_access_safety :
    (∀ (g : Grid) (row0 : List GameItem) (v : List Coordinates) (p : Coordinates),
      g.get? 0 = some row0 → (∀ row ∈ g, row.length = row0.length) →
      p.isValid g.length row0.length = true →
      (findConnectedGroup g v p).isSome = true) ∧
    findConnectedGroup [[GameItem.new 0]] [] ⟨0, 1⟩ = none ∧
    findConnectedGroup ([] : Grid) [] ⟨0, 0⟩ = none :=
  ⟨fun _ _ v _ h1 h2 h3 => findConnectedGroup_isSome v h1 h2 h3,
   by decide, by decide⟩

/-- Witness for C10, exercising the safety half on a 1×1 board with a
stale visited mark. -/
theorem C10_witness :
    (findConnectedGroup [[GameItem.new 0]] [⟨9, 9⟩] ⟨0, 0⟩).isSome = true :=
  C10_access_safety.1 [[GameItem.new 0]] [GameItem.new 0] [⟨9, 9⟩] ⟨0, 0⟩
    (by decide) (by intro row hr; rw [List.mem_singleton] at hr; subst hr; rfl)
    (by decide)
